import Mathlib

/-!
Verification of the scaffolding utility module
(`operations/base/utils/__init__.py`).

The module manipulates a filesystem (existence checks, template copies,
placeholder substitution) and provides a pure snake_case → CamelCase
converter.  The development below gives a shallow embedding:

* Python strings are Lean `String`s; the Python methods `str.title()`,
  `str.lower()`, `str.split('_')` and `str.replace(old, new)` are modelled
  by structurally recursive Lean functions (`pyTitle`, `pyLower`,
  `pySplitUnd`, `pyReplace`) that follow Python's documented semantics for
  the character data the tool handles.
* The filesystem is a state: an association list from resolved paths
  (lists of components) to entries (directory, or file with contents),
  together with a counter that models the fresh names handed out by
  `tempfile.mkdtemp` (the system temp area lives under the reserved root
  component "TMP").  All paths are taken to be fully resolved, so
  `os.path.join(os.getcwd(), rel, name)` is modelled as `rel ++ [name]`.
* Each fallible Python function becomes a Lean function returning
  `Res α`: success with a value and the resulting state, or an error
  (matching Python's exception) together with the state at raise time —
  side effects performed before an exception are kept, as in Python.
-/

/-! ### Python string primitives -/

/-- Model of Python `str.title()` on a list of characters: a letter that
follows a letter is lowercased, a letter that follows a non-letter (or
starts the string) is uppercased; non-letters pass through.  The flag
records whether the previous character was a letter. -/
def pyTitle : List Char → Bool → List Char
  | [], _ => []
  | c :: cs, prevAlpha =>
    if c.isAlpha then
      (if prevAlpha then c.toLower else c.toUpper) :: pyTitle cs true
    else
      c :: pyTitle cs false

/-- Model of Python `str.lower()` (ASCII): lowercase every character. -/
def pyLower (s : String) : String :=
  String.mk (s.data.map Char.toLower)

/-- Model of Python `snake_str.split('_')`: split on every underscore,
keeping empty segments; the empty string yields one empty segment, as in
Python. -/
def pySplitUnd : List Char → List (List Char)
  | [] => [[]]
  | c :: cs =>
    let r := pySplitUnd cs
    if c = '_' then [] :: r
    else
      match r with
      | [] => [[c]]
      | h :: t => (c :: h) :: t

/-- Model of Python `''.join(...)` over a list of strings. -/
def joinStrs : List String → String
  | [] => ""
  | s :: t => s ++ joinStrs t

/-- Auxiliary scan for `pyReplace` with a non-empty pattern: replace each
non-overlapping occurrence, scanning left to right.  The fuel argument is
initialised with the length of the scanned list (every step consumes at
least one character, so the fuel never runs out). -/
def pyReplaceAux (pat rep : List Char) : Nat → List Char → List Char
  | _, [] => []
  | 0, s => s
  | fuel + 1, c :: cs =>
    if pat.isPrefixOf (c :: cs) then
      rep ++ pyReplaceAux pat rep fuel (cs.drop (pat.length - 1))
    else
      c :: pyReplaceAux pat rep fuel cs

/-- Model of Python `s.replace(pat, rep)`: replace all non-overlapping
occurrences of `pat` left to right; an empty pattern inserts `rep` before
every character and at the end, as Python does. -/
def pyReplace (s pat rep : String) : String :=
  match pat.data with
  | [] => String.mk (rep.data ++ (s.data.map (fun c => c :: rep.data)).flatten)
  | _ :: _ => String.mk (pyReplaceAux pat.data rep.data s.data.length s.data)

/-! ### `to_camel_case` (source lines 149-161) -/

/-- Model of `to_camel_case`: `components = snake_str.split('_')`, then
`components[0].title() + ''.join(x.title() for x in components[1:])`.
The split always returns at least one segment, so the `[]` branch is
unreachable. -/
def to_camel_case (snake_str : String) : String :=
  match pySplitUnd snake_str.data with
  | [] => ""
  | c0 :: rest =>
    String.mk (pyTitle c0 false) ++ joinStrs (rest.map (fun x => String.mk (pyTitle x false)))

/-! ### Filesystem model -/

/-- A resolved filesystem path, as its list of components. -/
abbrev FPath := List String

/-- A filesystem entry: a directory, or a regular file with its text
contents. -/
inductive Entry where
  | dir : Entry
  | file (contents : String) : Entry
deriving DecidableEq

/-- Filesystem state: entries keyed by path (first match wins, so a
prepended entry shadows an older one, which models overwriting), plus the
counter from which `tempfile.mkdtemp` derives its fresh directory names. -/
structure FS where
  entries : List (FPath × Entry)
  ctr : Nat
deriving DecidableEq

/-- First entry stored at a path, if any. -/
def lookupE : List (FPath × Entry) → FPath → Option Entry
  | [], _ => none
  | pe :: rest, p => if pe.1 = p then some pe.2 else lookupE rest p

/-- The exceptions the module can raise, with their message strings:
`FileNotFoundError`, `FileExistsError` (raised inside `shutil.copytree`),
`LibraryException` (spec kind `LibraryAlreadyExistsError`),
`LibraryNotFound` (spec kind `LibraryNotFoundError`) and
`OperationException` (spec kind `OperationAlreadyExistsError`). -/
inductive Err where
  | fileNotFound (msg : String) : Err
  | fileExists (msg : String) : Err
  | libraryException (msg : String) : Err
  | libraryNotFound (msg : String) : Err
  | operationException (msg : String) : Err
deriving DecidableEq

/-- Result of running a fallible, state-mutating function: the Python
function either returns a value or raises; either way the filesystem as
mutated so far is kept. -/
inductive Res (α : Type) where
  | ok (a : α) (fs : FS) : Res α
  | error (e : Err) (fs : FS) : Res α
deriving DecidableEq

/-- Render a resolved path as the string Python would interpolate into an
error message. -/
def joinPath : FPath → String
  | [] => ""
  | h :: t => t.foldl (fun a c => a ++ "/" ++ c) h

/-- Model of `os.path.isdir`. -/
def os_path_isdir (fs : FS) (p : FPath) : Bool :=
  match lookupE fs.entries p with
  | some .dir => true
  | _ => false

/-- Model of `os.path.isfile`. -/
def os_path_isfile (fs : FS) (p : FPath) : Bool :=
  match lookupE fs.entries p with
  | some (.file _) => true
  | _ => false

/-- Root component of the system temp area used by `tempfile.mkdtemp`;
user-supplied roots are assumed not to live under it. -/
def tmpRoot : String := "TMP"

/-- The fresh directory name `mkdtemp` derives from counter value `k`. -/
def tmpName (k : Nat) : String :=
  String.mk (List.replicate k 'a')

/-- Model of `tempfile.mkdtemp()`: creates (and returns) a fresh directory
under the system temp area and bumps the freshness counter. -/
def mkdtemp (fs : FS) : FPath × FS :=
  ([tmpRoot, tmpName fs.ctr],
   { entries := ([tmpRoot, tmpName fs.ctr], Entry.dir) :: fs.entries,
     ctr := fs.ctr + 1 })

/-- The entries that `shutil.copytree(src, dst)` adds: every entry whose
path lies at or under `src`, re-rooted at `dst`. -/
def copyEntries (src dst : FPath) (l : List (FPath × Entry)) : List (FPath × Entry) :=
  l.filterMap (fun pe =>
    if src.isPrefixOf pe.1 then
      some (dst ++ pe.1.drop src.length, pe.2)
    else none)

/-- Model of `shutil.copytree(src, dst)` (Python 3.7 semantics): `src`
must be an existing directory (else `FileNotFoundError`), `dst` must not
exist (else `os.makedirs(dst)` raises `FileExistsError`); on success every
entry under `src` is duplicated under `dst`. -/
def copytree (src dst : FPath) (fs : FS) : Res Unit :=
  if os_path_isdir fs src then
    if (lookupE fs.entries dst).isSome then
      .error (.fileExists (joinPath dst)) fs
    else
      .ok () { fs with entries := copyEntries src dst fs.entries ++ fs.entries }
  else
    .error (.fileNotFound (joinPath src)) fs

/-- Model of `shutil.rmtree(p)`: `p` must be an existing directory; every
entry at or under it is removed. -/
def rmtree (p : FPath) (fs : FS) : Res Unit :=
  if os_path_isdir fs p then
    .ok () { fs with
      entries := fs.entries.filter (fun pe => !(p.isPrefixOf pe.1)) }
  else
    .error (.fileNotFound (joinPath p)) fs

/-! ### The module's functions (source lines 11-161) -/

/-- Model of `replace_placeholders_in_file` (source lines 44-67): raise
`FileNotFoundError` unless `file_path` is a regular file, then for each
placeholder in mapping order do a full read of the file, replace all
occurrences of the key, and write the result back.  The file stays a file
throughout, so the read in the loop body always succeeds; the `_` match
arm is unreachable. -/
def replace_placeholders_in_file (file_path : FPath) (placeholders : List (String × String)) (fs : FS) : Res Unit :=
  if os_path_isfile fs file_path then
    .ok () (placeholders.foldl (fun fsa kv =>
      match lookupE fsa.entries file_path with
      | some (.file text) =>
        { fsa with entries := (file_path, Entry.file (pyReplace text kv.1 kv.2)) :: fsa.entries }
      | _ => fsa) fs)
  else
    .error (.fileNotFound (joinPath file_path ++ " does not exist")) fs

/-- Model of `library_exists(name, operations_dir)` (source lines 69-88):
raise `FileNotFoundError` unless `operations_dir` is a directory, then
report whether `operations_dir/name` (the source joins the current
working directory in front, which is the identity on resolved paths) is a
directory.  The name is used verbatim, not lowercased. -/
def library_exists (name : String) (operations_dir : FPath) (fs : FS) : Res Bool :=
  if os_path_isdir fs operations_dir then
    .ok (os_path_isdir fs (operations_dir ++ [name])) fs
  else
    .error (.fileNotFound (joinPath operations_dir ++ " does not exist.")) fs

/-- Model of `operation_exists(operations_dir, library_name,
operation_name)` (source lines 90-113). -/
def operation_exists (operations_dir : FPath) (library_name operation_name : String) (fs : FS) : Res Bool :=
  if os_path_isdir fs operations_dir then
    match library_exists library_name operations_dir fs with
    | .error e fs => .error e fs
    | .ok le fs =>
      if le then
        .ok (os_path_isfile fs (operations_dir ++ [library_name, operation_name, "__init__.py"])) fs
      else
        .error (.libraryNotFound (joinPath (operations_dir ++ [library_name]))) fs
  else
    .error (.fileNotFound (joinPath operations_dir)) fs

/-- Resolved location of the library template directory
`operations/base/utils/templates/make_library` (the source addresses it
relative to the working directory). -/
def templ_library : FPath := ["operations", "base", "utils", "templates", "make_library"]

/-- Resolved location of the operation template directory
`operations/base/utils/templates/make_operation`. -/
def templ_operation : FPath := ["operations", "base", "utils", "templates", "make_operation"]

/-- The staging block that `library_create` (source lines 32-38) and
`operation_create` (source lines 138-144) both perform verbatim:
`tmp_dir = os.path.join(tempfile.mkdtemp(), 'tmp')`, copy the template
tree to `tmp_dir`, substitute the placeholder inside
`tmp_dir/__init__.py`, copy the staged tree to its destination, and
remove `tmp_dir` (the `mkdtemp` directory itself is left behind, as in
the source).  Returns the destination path, which both callers return. -/
def scaffold_copy (templ dst : FPath) (ph : String × String) (fs : FS) : Res FPath :=
  let md := mkdtemp fs
  let tmp_dir := md.1 ++ ["tmp"]
  let tmp_init := tmp_dir ++ ["__init__.py"]
  match copytree templ tmp_dir md.2 with
  | .error e fs => .error e fs
  | .ok _ fs =>
    match replace_placeholders_in_file tmp_init [ph] fs with
    | .error e fs => .error e fs
    | .ok _ fs =>
      match copytree tmp_dir dst fs with
      | .error e fs => .error e fs
      | .ok _ fs =>
        match rmtree tmp_dir fs with
        | .error e fs => .error e fs
        | .ok _ fs => .ok dst fs

/-- Model of `library_create(library_name, out_dir)` (source lines
11-42): raise `LibraryException` if the library already exists (checked
with the name verbatim), raise `FileNotFoundError` if `out_dir` is not a
directory (dead code: `library_exists` already required that), then stage
the library template with the `LIBRARYNAME` placeholder set to the
lowercased name and install it at `out_dir/<lowercased name>`, returning
that path.  The success message printed with `cprint` is not modelled. -/
def library_create (library_name : String) (out_dir : FPath) (fs : FS) : Res FPath :=
  match library_exists library_name out_dir fs with
  | .error e fs => .error e fs
  | .ok ex fs =>
    if ex then
      .error (.libraryException ("The library " ++ library_name ++ " already exists under " ++ joinPath out_dir)) fs
    else if os_path_isdir fs out_dir then
      scaffold_copy templ_library (out_dir ++ [pyLower library_name]) ("LIBRARYNAME", pyLower library_name) fs
    else
      .error (.fileNotFound (joinPath out_dir ++ " does not exist")) fs

/-- Model of `operation_create(operations_dir, library_name,
operation_name)` (source lines 115-147): create the library first when it
does not exist, raise `OperationException` if the operation already
exists, then stage the operation template with the `NEWOPERATION`
placeholder set to the CamelCase operation name and install it at
`operations_dir/library_name/operation_name` (the library name is used
verbatim here, not lowercased), returning that path. -/
def operation_create (operations_dir : FPath) (library_name operation_name : String) (fs : FS) : Res FPath :=
  match library_exists library_name operations_dir fs with
  | .error e fs => .error e fs
  | .ok le fs =>
    match (if le then Res.ok () fs else
      match library_create library_name operations_dir fs with
      | .error e fs => Res.error e fs
      | .ok _ fs => Res.ok () fs : Res Unit) with
    | .error e fs => .error e fs
    | .ok _ fs =>
      match operation_exists operations_dir library_name operation_name fs with
      | .error e fs => .error e fs
      | .ok oe fs =>
        if oe then
          .error (.operationException (joinPath (operations_dir ++ [library_name, operation_name]) ++ " already exists.")) fs
        else
          scaffold_copy templ_operation (operations_dir ++ [library_name, operation_name]) ("NEWOPERATION", to_camel_case operation_name) fs

/-! ### Well-formedness predicates and concrete states -/

/-- One entry path respects the temp-area discipline for counter value
`ctr`: anything stored under the system temp root sits inside a `mkdtemp`
directory whose name was issued before `ctr`. -/
def tmpEntryOK (ctr : Nat) (p : FPath) : Bool :=
  match p with
  | r :: nm :: _ => if r = tmpRoot then !(nm.data.all (fun c => c == 'a')) || decide (nm.length < ctr) else true
  | _ => true

/-- The whole state respects the temp-area discipline: names that
`mkdtemp` will issue from now on are unused.  This is the decidable form
used as a hypothesis of the theorems below. -/
def FS.tmpInv (fs : FS) : Bool :=
  fs.entries.all (fun pe => tmpEntryOK fs.ctr pe.1)

/-- Lookup-level consequence of `FS.tmpInv`: no path inside a yet-unissued
`mkdtemp` directory resolves to anything. -/
def TmpFree (fs : FS) : Prop :=
  ∀ k, fs.ctr ≤ k → ∀ s : FPath, lookupE fs.entries (tmpRoot :: tmpName k :: s) = none

/-- Decidable hypothesis: no entry at all lies at or under path `X`. -/
def noneUnder (X : FPath) (fs : FS) : Bool :=
  fs.entries.all (fun pe => !(X.isPrefixOf pe.1))

/-- Decidable hypothesis: the template tree at `T` consists of exactly the
directory itself and its initializer file (the shape of the shipped
`make_library` / `make_operation` templates). -/
def templShape (T : FPath) (fs : FS) : Bool :=
  fs.entries.all (fun pe =>
    !(T.isPrefixOf pe.1) || (pe.1 == T) || (pe.1 == T ++ ["__init__.py"]))

/-! ### Concrete states used by the witnesses and counterexamples -/

/-- A small filesystem: an empty target directory `d` and the two shipped
templates, each a directory with one placeholder-bearing initializer. -/
def fs0 : FS :=
  { entries := [(["d"], Entry.dir),
      (templ_library, Entry.dir),
      (templ_library ++ ["__init__.py"], Entry.file "import LIBRARYNAME"),
      (templ_operation, Entry.dir),
      (templ_operation ++ ["__init__.py"], Entry.file "class NEWOPERATION")],
    ctr := 0 }

/-- `fs0` with an existing lowercase library directory `d/foo`. -/
def fsC3 : FS := { entries := (["d", "foo"], Entry.dir) :: fs0.entries, ctr := 0 }

/-- `fs0` with an existing library directory `d/x`. -/
def fsC4 : FS := { entries := (["d", "x"], Entry.dir) :: fs0.entries, ctr := 0 }

/-- A filesystem holding one file `f` with contents `"Hello NAME"`. -/
def fsHello : FS := { entries := [(["f"], Entry.file "Hello NAME")], ctr := 0 }

/-- `fs0` with a library `d/l` containing an operation `d/l/op`. -/
def fsC8 : FS :=
  { entries := (["d", "l"], Entry.dir) :: (["d", "l", "op", "__init__.py"], Entry.file "x") :: fs0.entries,
    ctr := 0 }

/-! ### Lookup and path-prefix lemmas -/

theorem lookupE_cons_ne {pe : FPath × Entry} {l : List (FPath × Entry)} {p : FPath} (h : pe.1 ≠ p) :
    lookupE (pe :: l) p = lookupE l p := by
  simp [lookupE, h]

theorem lookupE_cons_self {pe : FPath × Entry} {l : List (FPath × Entry)} :
    lookupE (pe :: l) pe.1 = some pe.2 := by
  simp [lookupE]

theorem lookupE_append_some {l₁ l₂ : List (FPath × Entry)} {p : FPath} {v : Entry}
    (h : lookupE l₁ p = some v) : lookupE (l₁ ++ l₂) p = some v := by
  induction l₁ with
  | nil => simp [lookupE] at h
  | cons pe t ih =>
    by_cases hp : pe.1 = p
    · rw [List.cons_append]
      rw [show lookupE (pe :: t) p = some pe.2 from by simp [lookupE, hp]] at h
      simp [lookupE, hp, h]
    · rw [lookupE_cons_ne hp] at h
      rw [List.cons_append, lookupE_cons_ne hp]
      exact ih h

theorem lookupE_append_none {l₁ l₂ : List (FPath × Entry)} {p : FPath}
    (h : lookupE l₁ p = none) : lookupE (l₁ ++ l₂) p = lookupE l₂ p := by
  induction l₁ with
  | nil => rfl
  | cons pe t ih =>
    by_cases hp : pe.1 = p
    · simp [lookupE, hp] at h
    · rw [lookupE_cons_ne hp] at h
      rw [List.cons_append, lookupE_cons_ne hp]
      exact ih h

theorem lookupE_eq_none_iff {l : List (FPath × Entry)} {p : FPath} :
    lookupE l p = none ↔ ∀ pe ∈ l, pe.1 ≠ p := by
  induction l with
  | nil => simp [lookupE]
  | cons pe t ih =>
    by_cases hp : pe.1 = p
    · constructor
      · intro h
        simp [lookupE, hp] at h
      · intro h
        exact absurd hp (h pe (List.mem_cons_self pe t))
    · rw [lookupE_cons_ne hp, ih]
      constructor
      · rintro h q hq
        rcases List.mem_cons.1 hq with rfl | hq'
        · exact hp
        · exact h q hq'
      · intro h q hq
        exact h q (List.mem_cons_of_mem pe hq)

theorem isPrefixOf_append (l t : FPath) : l.isPrefixOf (l ++ t) = true := by
  induction l with
  | nil => simp
  | cons a as ih => simp [ih]

theorem isPrefixOf_refl (l : FPath) : l.isPrefixOf l = true := by
  have h := isPrefixOf_append l []
  rwa [List.append_nil] at h

theorem eq_append_of_isPrefixOf {l m : FPath} (h : l.isPrefixOf m = true) :
    ∃ t, m = l ++ t := by
  induction l generalizing m with
  | nil => exact ⟨m, rfl⟩
  | cons a as ih =>
    cases m with
    | nil => simp at h
    | cons b bs =>
      simp only [List.isPrefixOf, Bool.and_eq_true, beq_iff_eq] at h
      obtain ⟨t, ht⟩ := ih h.2
      refine ⟨t, ?_⟩
      rw [ht, h.1, List.cons_append]

theorem isPrefixOf_trans {p q r : FPath} (h1 : p.isPrefixOf q = true)
    (h2 : q.isPrefixOf r = true) : p.isPrefixOf r = true := by
  obtain ⟨t1, rfl⟩ := eq_append_of_isPrefixOf h1
  obtain ⟨t2, rfl⟩ := eq_append_of_isPrefixOf h2
  rw [List.append_assoc]
  exact isPrefixOf_append _ _

theorem isPrefixOf_false_of_head {a b : String} (as bs : List String) (h : a ≠ b) :
    (a :: as).isPrefixOf (b :: bs) = false := by
  simp [List.isPrefixOf, h]

theorem ne_of_not_isPrefixOf {l p : FPath} (h : l.isPrefixOf p = false) : p ≠ l := by
  rintro rfl
  rw [isPrefixOf_refl] at h
  cases h

theorem isPrefixOf_length_le {l m : FPath} (h : l.isPrefixOf m = true) :
    l.length ≤ m.length := by
  obtain ⟨t, rfl⟩ := eq_append_of_isPrefixOf h
  simp

theorem prefixes_comparable {p q r : FPath} (hp : p.isPrefixOf r = true)
    (hq : q.isPrefixOf r = true) : p.isPrefixOf q = true ∨ q.isPrefixOf p = true := by
  induction p generalizing q r with
  | nil => left; simp
  | cons a as ih =>
    cases q with
    | nil => right; simp
    | cons b bs =>
      cases r with
      | nil => simp at hp
      | cons c cs =>
        simp only [List.isPrefixOf, Bool.and_eq_true, beq_iff_eq] at hp hq
        rcases ih hp.2 hq.2 with h | h
        · left
          simp [List.isPrefixOf, hp.1, hq.1, h]
        · right
          simp [List.isPrefixOf, hp.1, hq.1, h]

/-! ### Effect of `copytree`, `rmtree` and writes on lookups -/

theorem lookupE_copyEntries_under (src dst : FPath) (l : List (FPath × Entry)) (s : FPath) :
    lookupE (copyEntries src dst l) (dst ++ s) = lookupE l (src ++ s) := by
  induction l with
  | nil => rfl
  | cons pe t ih =>
    by_cases hp : src.isPrefixOf pe.1 = true
    · obtain ⟨u, hu⟩ := eq_append_of_isPrefixOf hp
      rw [copyEntries, List.filterMap_cons, if_pos hp]
      rw [hu, List.drop_left]
      by_cases he : u = s
      · subst he
        rw [show lookupE ((dst ++ u, pe.2) :: List.filterMap _ t) (dst ++ u) = some pe.2 from by
          simp [lookupE]]
        rw [show lookupE (pe :: t) (src ++ u) = some pe.2 from by simp [lookupE, hu]]
      · have h1 : (dst ++ u, pe.2).1 ≠ dst ++ s := by
          simp only []
          intro hh
          exact he (by simpa using hh)
        have h2 : pe.1 ≠ src ++ s := by
          rw [hu]
          intro hh
          exact he (by simpa using hh)
        rw [lookupE_cons_ne h1, lookupE_cons_ne h2]
        exact ih
    · have hne : pe.1 ≠ src ++ s := by
        intro hh
        rw [hh] at hp
        exact hp (isPrefixOf_append src s)
      rw [copyEntries, List.filterMap_cons, if_neg hp, lookupE_cons_ne hne]
      exact ih

theorem lookupE_copyEntries_none (src dst : FPath) (l : List (FPath × Entry)) {p : FPath}
    (h : dst.isPrefixOf p = false) :
    lookupE (copyEntries src dst l) p = none := by
  induction l with
  | nil => rfl
  | cons pe t ih =>
    by_cases hp : src.isPrefixOf pe.1 = true
    · have hne : (dst ++ pe.1.drop src.length, pe.2).1 ≠ p := by
        simp only []
        intro hh
        rw [← hh, isPrefixOf_append] at h
        cases h
      rw [copyEntries, List.filterMap_cons, if_pos hp, lookupE_cons_ne hne]
      exact ih
    · rw [copyEntries, List.filterMap_cons, if_neg hp]
      exact ih

theorem lookupE_copy_state (src dst : FPath) (l : List (FPath × Entry)) (s : FPath)
    (hold : lookupE l (dst ++ s) = none) :
    lookupE (copyEntries src dst l ++ l) (dst ++ s) = lookupE l (src ++ s) := by
  have hc := lookupE_copyEntries_under src dst l s
  cases hv : lookupE l (src ++ s) with
  | some v =>
    rw [hv] at hc
    exact lookupE_append_some hc
  | none =>
    rw [hv] at hc
    rw [lookupE_append_none hc]
    exact hold

theorem lookupE_copy_state_frame (src dst : FPath) (l : List (FPath × Entry)) {p : FPath}
    (h : dst.isPrefixOf p = false) :
    lookupE (copyEntries src dst l ++ l) p = lookupE l p :=
  lookupE_append_none (lookupE_copyEntries_none src dst l h)

theorem lookupE_filter_out {l : List (FPath × Entry)} {p q : FPath}
    (h : p.isPrefixOf q = true) :
    lookupE (l.filter (fun pe => !(p.isPrefixOf pe.1))) q = none := by
  rw [lookupE_eq_none_iff]
  intro pe hmem
  rcases List.mem_filter.1 hmem with ⟨_, hkeep⟩
  intro hq
  rw [hq] at hkeep
  rw [h] at hkeep
  cases hkeep

theorem filter_cons_keep {l : List (FPath × Entry)} {pr : FPath} {pe : FPath × Entry}
    (h : pr.isPrefixOf pe.1 = false) :
    (pe :: l).filter (fun x => !(pr.isPrefixOf x.1)) = pe :: l.filter (fun x => !(pr.isPrefixOf x.1)) := by
  simp [List.filter_cons, h]

theorem filter_cons_drop {l : List (FPath × Entry)} {pr : FPath} {pe : FPath × Entry}
    (h : pr.isPrefixOf pe.1 = true) :
    (pe :: l).filter (fun x => !(pr.isPrefixOf x.1)) = l.filter (fun x => !(pr.isPrefixOf x.1)) := by
  simp [List.filter_cons, h]

theorem lookupE_filter_keep {l : List (FPath × Entry)} {p q : FPath}
    (h : p.isPrefixOf q = false) :
    lookupE (l.filter (fun pe => !(p.isPrefixOf pe.1))) q = lookupE l q := by
  induction l with
  | nil => rfl
  | cons pe t ih =>
    cases hb : p.isPrefixOf pe.1 with
    | true =>
      have hq : pe.1 ≠ q := by
        intro hh
        rw [hh, h] at hb
        cases hb
      rw [filter_cons_drop hb, lookupE_cons_ne hq]
      exact ih
    | false =>
      by_cases hq : pe.1 = q
      · rw [filter_cons_keep hb]
        rw [show lookupE (pe :: t.filter (fun x => !(p.isPrefixOf x.1))) q = some pe.2 from by
          simp [lookupE, hq]]
        rw [show lookupE (pe :: t) q = some pe.2 from by simp [lookupE, hq]]
      · rw [filter_cons_keep hb, lookupE_cons_ne hq, lookupE_cons_ne hq]
        exact ih

/-! ### Decidable well-formedness hypotheses and their bridges -/

theorem tmpName_length (k : Nat) : (tmpName k).length = k := by
  simp [tmpName, String.length]

theorem tmpName_all_a (k : Nat) : (tmpName k).data.all (fun c => c == 'a') = true := by
  rw [List.all_eq_true]
  intro c hc
  have : c = 'a' := List.eq_of_mem_replicate hc
  simp [this]

theorem TmpFree_of_tmpInv {fs : FS} (h : fs.tmpInv = true) : TmpFree fs := by
  intro k hk s
  rw [lookupE_eq_none_iff]
  intro pe hmem heq
  have hOK : tmpEntryOK fs.ctr pe.1 = true := by
    rw [FS.tmpInv, List.all_eq_true] at h
    exact h pe hmem
  rw [heq] at hOK
  rw [tmpEntryOK] at hOK
  rw [if_pos rfl] at hOK
  rcases Bool.or_eq_true_iff.1 hOK with hbad | hlt
  · rw [tmpName_all_a] at hbad
    cases hbad
  · rw [decide_eq_true_iff, tmpName_length] at hlt
    omega

theorem noneUnder_spec {X : FPath} {fs : FS} (h : noneUnder X fs = true) :
    ∀ s : FPath, lookupE fs.entries (X ++ s) = none := by
  intro s
  rw [lookupE_eq_none_iff]
  intro pe hmem heq
  rw [noneUnder, List.all_eq_true] at h
  have := h pe hmem
  rw [heq, isPrefixOf_append] at this
  cases this

theorem templShape_spec {T : FPath} {fs : FS} (h : templShape T fs = true) :
    ∀ s : FPath, s ≠ [] → s ≠ ["__init__.py"] → lookupE fs.entries (T ++ s) = none := by
  intro s hs hsi
  rw [lookupE_eq_none_iff]
  intro pe hmem heq
  rw [templShape, List.all_eq_true] at h
  have hpe := h pe hmem
  rw [heq] at hpe
  rw [isPrefixOf_append] at hpe
  rcases Bool.or_eq_true_iff.1 hpe with hor | hinit
  · rcases Bool.or_eq_true_iff.1 hor with hbad | hroot
    · cases hbad
    · rw [beq_iff_eq] at hroot
      exact hs (by simpa using hroot)
  · rw [beq_iff_eq] at hinit
    exact hsi (by simpa using hinit)

/-! ### Success-case characterisations of the primitive steps -/

theorem copytree_spec {fs : FS} {src dst : FPath}
    (hsrc : lookupE fs.entries src = some Entry.dir)
    (hdst : lookupE fs.entries dst = none) :
    copytree src dst fs = .ok () ⟨copyEntries src dst fs.entries ++ fs.entries, fs.ctr⟩ := by
  simp [copytree, os_path_isdir, hsrc, hdst]

theorem replace_one_spec {fs : FS} {fp : FPath} {K V t : String}
    (h : lookupE fs.entries fp = some (Entry.file t)) :
    replace_placeholders_in_file fp [(K, V)] fs =
      .ok () ⟨(fp, Entry.file (pyReplace t K V)) :: fs.entries, fs.ctr⟩ := by
  simp [replace_placeholders_in_file, os_path_isfile, h]

theorem rmtree_spec {fs : FS} {p : FPath}
    (h : lookupE fs.entries p = some Entry.dir) :
    rmtree p fs = .ok () ⟨fs.entries.filter (fun pe => !(p.isPrefixOf pe.1)), fs.ctr⟩ := by
  simp [rmtree, os_path_isdir, h]

/-! ### Characterisation of the staging block -/

/-- Successful run of the staging block shared by `library_create` and
`operation_create`: given a clean temp area, an intact two-entry template
at `templ`, and a completely absent destination subtree `dst` (neither
inside the temp area), the block succeeds, installs at `dst` exactly a
directory plus an initializer file whose placeholder was substituted,
leaves the rest of the filesystem unchanged apart from the leaked
`mkdtemp` directory, bumps the counter and keeps the temp area clean. -/
theorem scaffold_copy_spec {fs : FS} {templ dst : FPath} {K V t : String}
    (htmp : TmpFree fs)
    (hTne : templ ≠ []) (hTh : templ.head? ≠ some tmpRoot)
    (hTdir : lookupE fs.entries templ = some Entry.dir)
    (hTinit : lookupE fs.entries (templ ++ ["__init__.py"]) = some (Entry.file t))
    (hTshape : ∀ s : FPath, s ≠ [] → s ≠ ["__init__.py"] → lookupE fs.entries (templ ++ s) = none)
    (hDne : dst ≠ []) (hDh : dst.head? ≠ some tmpRoot)
    (hDfresh : ∀ s : FPath, lookupE fs.entries (dst ++ s) = none) :
    ∃ fs' : FS,
      scaffold_copy templ dst (K, V) fs = .ok dst fs' ∧
      lookupE fs'.entries dst = some Entry.dir ∧
      lookupE fs'.entries (dst ++ ["__init__.py"]) = some (Entry.file (pyReplace t K V)) ∧
      (∀ s : FPath, s ≠ [] → s ≠ ["__init__.py"] → lookupE fs'.entries (dst ++ s) = none) ∧
      (∀ p : FPath, [tmpRoot, tmpName fs.ctr].isPrefixOf p = false → dst.isPrefixOf p = false →
        lookupE fs'.entries p = lookupE fs.entries p) ∧
      fs'.ctr = fs.ctr + 1 ∧
      TmpFree fs' := by
  obtain ⟨a, ta, rfl⟩ : ∃ a ta, templ = a :: ta := by
    cases templ with
    | nil => exact absurd rfl hTne
    | cons x xs => exact ⟨x, xs, rfl⟩
  obtain ⟨d0, dt, rfl⟩ : ∃ d0 dt, dst = d0 :: dt := by
    cases dst with
    | nil => exact absurd rfl hDne
    | cons x xs => exact ⟨x, xs, rfl⟩
  have ha : a ≠ tmpRoot := by
    intro hh
    exact hTh (by rw [hh]; rfl)
  have hd0 : d0 ≠ tmpRoot := by
    intro hh
    exact hDh (by rw [hh]; rfl)
  have hmkne : ∀ l : FPath, ([tmpRoot, tmpName fs.ctr] : FPath) ≠ a :: l := by
    intro l hh
    injection hh with h1 _
    exact ha h1.symm
  have hmknd : ∀ l : FPath, ([tmpRoot, tmpName fs.ctr] : FPath) ≠ d0 :: l := by
    intro l hh
    injection hh with h1 _
    exact hd0 h1.symm
  have hmkntd : ∀ s : FPath, ([tmpRoot, tmpName fs.ctr] : FPath) ≠ tmpRoot :: tmpName fs.ctr :: "tmp" :: s := by
    intro s hh
    simp at hh
  have hpTd : ∀ x l : FPath, (tmpRoot :: x).isPrefixOf (d0 :: l) = false := by
    intro x l
    exact isPrefixOf_false_of_head x l (Ne.symm hd0)
  have hpDt : ∀ x l : FPath, (d0 :: x).isPrefixOf (tmpRoot :: l) = false := by
    intro x l
    exact isPrefixOf_false_of_head x l hd0
  have hf0 : ∀ s : FPath, lookupE fs.entries (tmpRoot :: tmpName fs.ctr :: s) = none :=
    htmp fs.ctr (Nat.le_refl _)
  have hsrc1 : lookupE (([tmpRoot, tmpName fs.ctr], Entry.dir) :: fs.entries) (a :: ta) = some Entry.dir := by
    rw [lookupE_cons_ne (hmkne ta)]
    exact hTdir
  have hdst1 : lookupE (([tmpRoot, tmpName fs.ctr], Entry.dir) :: fs.entries)
      (([tmpRoot, tmpName fs.ctr] : FPath) ++ ["tmp"]) = none := by
    rw [lookupE_cons_ne (hmkntd [])]
    exact hf0 ["tmp"]
  have e1 : copytree (a :: ta) (([tmpRoot, tmpName fs.ctr] : FPath) ++ ["tmp"])
      { entries := ([tmpRoot, tmpName fs.ctr], Entry.dir) :: fs.entries, ctr := fs.ctr + 1 } =
      .ok () ⟨copyEntries (a :: ta) (([tmpRoot, tmpName fs.ctr] : FPath) ++ ["tmp"])
                (([tmpRoot, tmpName fs.ctr], Entry.dir) :: fs.entries)
              ++ (([tmpRoot, tmpName fs.ctr], Entry.dir) :: fs.entries), fs.ctr + 1⟩ :=
    copytree_spec hsrc1 hdst1
  set E2 : List (FPath × Entry) :=
    copyEntries (a :: ta) (([tmpRoot, tmpName fs.ctr] : FPath) ++ ["tmp"])
        (([tmpRoot, tmpName fs.ctr], Entry.dir) :: fs.entries)
      ++ (([tmpRoot, tmpName fs.ctr], Entry.dir) :: fs.entries) with hE2
  have u2 : ∀ s : FPath, lookupE E2 (tmpRoot :: tmpName fs.ctr :: "tmp" :: s) =
      lookupE fs.entries (a :: (ta ++ s)) := by
    intro s
    have hold : lookupE (([tmpRoot, tmpName fs.ctr], Entry.dir) :: fs.entries)
        ((([tmpRoot, tmpName fs.ctr] : FPath) ++ ["tmp"]) ++ s) = none := by
      rw [show (([tmpRoot, tmpName fs.ctr] : FPath) ++ ["tmp"]) ++ s =
        tmpRoot :: tmpName fs.ctr :: "tmp" :: s from rfl]
      rw [lookupE_cons_ne (hmkntd s)]
      exact hf0 ("tmp" :: s)
    have hcs := lookupE_copy_state (a :: ta) (([tmpRoot, tmpName fs.ctr] : FPath) ++ ["tmp"])
      (([tmpRoot, tmpName fs.ctr], Entry.dir) :: fs.entries) s hold
    rw [hE2]
    rw [show (tmpRoot :: tmpName fs.ctr :: "tmp" :: s : FPath) =
      (([tmpRoot, tmpName fs.ctr] : FPath) ++ ["tmp"]) ++ s from rfl]
    rw [hcs]
    rw [show ((a :: ta : FPath) ++ s) = a :: (ta ++ s) from rfl]
    rw [lookupE_cons_ne (hmkne (ta ++ s))]
  have fr2 : ∀ p : FPath, (([tmpRoot, tmpName fs.ctr] : FPath) ++ ["tmp"]).isPrefixOf p = false →
      p ≠ [tmpRoot, tmpName fs.ctr] → lookupE E2 p = lookupE fs.entries p := by
    intro p hp hne
    rw [hE2]
    rw [lookupE_copy_state_frame _ _ _ hp]
    rw [lookupE_cons_ne (Ne.symm hne)]
  have ti2 : lookupE E2 (([tmpRoot, tmpName fs.ctr] : FPath) ++ ["tmp"] ++ ["__init__.py"]) =
      some (Entry.file t) := by
    have h := u2 ["__init__.py"]
    rw [show (([tmpRoot, tmpName fs.ctr] : FPath) ++ ["tmp"] ++ ["__init__.py"]) =
      tmpRoot :: tmpName fs.ctr :: "tmp" :: ["__init__.py"] from rfl]
    rw [h]
    rw [show (a :: (ta ++ ["__init__.py"]) : FPath) = (a :: ta) ++ ["__init__.py"] from rfl]
    exact hTinit
  have e2 : replace_placeholders_in_file
      (([tmpRoot, tmpName fs.ctr] : FPath) ++ ["tmp"] ++ ["__init__.py"]) [(K, V)] ⟨E2, fs.ctr + 1⟩ =
      .ok () ⟨((([tmpRoot, tmpName fs.ctr] : FPath) ++ ["tmp"] ++ ["__init__.py"]),
               Entry.file (pyReplace t K V)) :: E2, fs.ctr + 1⟩ :=
    replace_one_spec ti2
  set E3 : List (FPath × Entry) :=
    ((([tmpRoot, tmpName fs.ctr] : FPath) ++ ["tmp"] ++ ["__init__.py"]),
     Entry.file (pyReplace t K V)) :: E2 with hE3
  have hTIneTD : (([tmpRoot, tmpName fs.ctr] : FPath) ++ ["tmp"] ++ ["__init__.py"]) ≠
      ([tmpRoot, tmpName fs.ctr] : FPath) ++ ["tmp"] := by
    simp
  have ti3 : lookupE E3 (([tmpRoot, tmpName fs.ctr] : FPath) ++ ["tmp"] ++ ["__init__.py"]) =
      some (Entry.file (pyReplace t K V)) := by
    rw [hE3]
    exact lookupE_cons_self
  have d3 : lookupE E3 (([tmpRoot, tmpName fs.ctr] : FPath) ++ ["tmp"]) = some Entry.dir := by
    rw [hE3]
    rw [lookupE_cons_ne hTIneTD]
    have h := u2 []
    rw [show (([tmpRoot, tmpName fs.ctr] : FPath) ++ ["tmp"]) =
      tmpRoot :: tmpName fs.ctr :: "tmp" :: ([] : FPath) from rfl]
    rw [h, List.append_nil]
    exact hTdir
  have u3 : ∀ s : FPath, s ≠ ["__init__.py"] →
      lookupE E3 (tmpRoot :: tmpName fs.ctr :: "tmp" :: s) = lookupE fs.entries (a :: (ta ++ s)) := by
    intro s hs
    rw [hE3]
    have hne : (([tmpRoot, tmpName fs.ctr] : FPath) ++ ["tmp"] ++ ["__init__.py"]) ≠
        tmpRoot :: tmpName fs.ctr :: "tmp" :: s := by
      intro hh
      rw [show (([tmpRoot, tmpName fs.ctr] : FPath) ++ ["tmp"] ++ ["__init__.py"]) =
        tmpRoot :: tmpName fs.ctr :: "tmp" :: ["__init__.py"] from rfl] at hh
      simp at hh
      exact hs hh.symm
    rw [lookupE_cons_ne hne]
    exact u2 s
  have fr3 : ∀ p : FPath, (([tmpRoot, tmpName fs.ctr] : FPath) ++ ["tmp"]).isPrefixOf p = false →
      p ≠ [tmpRoot, tmpName fs.ctr] → lookupE E3 p = lookupE fs.entries p := by
    intro p hp hne
    rw [hE3]
    have hneTI : (([tmpRoot, tmpName fs.ctr] : FPath) ++ ["tmp"] ++ ["__init__.py"]) ≠ p := by
      intro hh
      rw [← hh, isPrefixOf_append] at hp
      cases hp
    rw [lookupE_cons_ne hneTI]
    exact fr2 p hp hne
  have hdst3 : lookupE E3 (d0 :: dt) = none := by
    rw [hE3]
    have hneTI : (([tmpRoot, tmpName fs.ctr] : FPath) ++ ["tmp"] ++ ["__init__.py"]) ≠ d0 :: dt := by
      rw [show (([tmpRoot, tmpName fs.ctr] : FPath) ++ ["tmp"] ++ ["__init__.py"]) =
        tmpRoot :: tmpName fs.ctr :: "tmp" :: ["__init__.py"] from rfl]
      intro hh
      injection hh with h1 _
      exact hd0 h1.symm
    rw [lookupE_cons_ne hneTI]
    have h := fr2 (d0 :: dt) (hpTd [tmpName fs.ctr, "tmp"] dt) (fun hh => hd0 (by injection hh))
    rw [h]
    have h0 := hDfresh []
    rw [List.append_nil] at h0
    exact h0
  have e3 : copytree (([tmpRoot, tmpName fs.ctr] : FPath) ++ ["tmp"]) (d0 :: dt) ⟨E3, fs.ctr + 1⟩ =
      .ok () ⟨copyEntries (([tmpRoot, tmpName fs.ctr] : FPath) ++ ["tmp"]) (d0 :: dt) E3 ++ E3,
              fs.ctr + 1⟩ :=
    copytree_spec d3 hdst3
  set E4 : List (FPath × Entry) :=
    copyEntries (([tmpRoot, tmpName fs.ctr] : FPath) ++ ["tmp"]) (d0 :: dt) E3 ++ E3 with hE4
  have u4 : ∀ s : FPath, lookupE E4 ((d0 :: dt) ++ s) =
      lookupE E3 (tmpRoot :: tmpName fs.ctr :: "tmp" :: s) := by
    intro s
    have hold : lookupE E3 ((d0 :: dt) ++ s) = none := by
      rw [hE3]
      have hneTI : (([tmpRoot, tmpName fs.ctr] : FPath) ++ ["tmp"] ++ ["__init__.py"]) ≠
          (d0 :: dt) ++ s := by
        rw [show (([tmpRoot, tmpName fs.ctr] : FPath) ++ ["tmp"] ++ ["__init__.py"]) =
          tmpRoot :: tmpName fs.ctr :: "tmp" :: ["__init__.py"] from rfl]
        rw [show ((d0 :: dt : FPath) ++ s) = d0 :: (dt ++ s) from rfl]
        intro hh
        injection hh with h1 _
        exact hd0 h1.symm
      rw [lookupE_cons_ne hneTI]
      have h := fr2 ((d0 :: dt) ++ s) (hpTd [tmpName fs.ctr, "tmp"] (dt ++ s))
        (fun hh => hd0 (by injection hh))
      rw [h]
      exact hDfresh s
    have hcs := lookupE_copy_state (([tmpRoot, tmpName fs.ctr] : FPath) ++ ["tmp"]) (d0 :: dt) E3 s hold
    rw [hE4]
    exact hcs
  have fr4 : ∀ p : FPath, (d0 :: dt).isPrefixOf p = false → lookupE E4 p = lookupE E3 p := by
    intro p hp
    rw [hE4]
    exact lookupE_copy_state_frame _ _ _ hp
  have d4 : lookupE E4 (([tmpRoot, tmpName fs.ctr] : FPath) ++ ["tmp"]) = some Entry.dir := by
    have q := fr4 (([tmpRoot, tmpName fs.ctr] : FPath) ++ ["tmp"]) (hpDt dt [tmpName fs.ctr, "tmp"])
    rw [q]
    exact d3
  have e4 : rmtree (([tmpRoot, tmpName fs.ctr] : FPath) ++ ["tmp"]) ⟨E4, fs.ctr + 1⟩ =
      .ok () ⟨E4.filter (fun pe => !((([tmpRoot, tmpName fs.ctr] : FPath) ++ ["tmp"]).isPrefixOf pe.1)),
              fs.ctr + 1⟩ :=
    rmtree_spec d4
  set E5 : List (FPath × Entry) :=
    E4.filter (fun pe => !((([tmpRoot, tmpName fs.ctr] : FPath) ++ ["tmp"]).isPrefixOf pe.1)) with hE5
  refine ⟨⟨E5, fs.ctr + 1⟩, ?_, ?_, ?_, ?_, ?_, rfl, ?_⟩
  · simp only [scaffold_copy, mkdtemp, e1, e2, e3, e4]
  · show lookupE E5 (d0 :: dt) = some Entry.dir
    have hk : lookupE E5 (d0 :: dt) = lookupE E4 (d0 :: dt) := by
      rw [hE5]
      exact lookupE_filter_keep (show (([tmpRoot, tmpName fs.ctr] : FPath) ++ ["tmp"]).isPrefixOf
        (d0 :: dt) = false from hpTd [tmpName fs.ctr, "tmp"] dt)
    rw [hk]
    have q := u4 []
    rw [List.append_nil] at q
    rw [q]
    exact d3
  · show lookupE E5 ((d0 :: dt) ++ ["__init__.py"]) = some (Entry.file (pyReplace t K V))
    have hk : lookupE E5 ((d0 :: dt) ++ ["__init__.py"]) = lookupE E4 ((d0 :: dt) ++ ["__init__.py"]) := by
      rw [hE5]
      exact lookupE_filter_keep (show (([tmpRoot, tmpName fs.ctr] : FPath) ++ ["tmp"]).isPrefixOf
        ((d0 :: dt) ++ ["__init__.py"]) = false from hpTd [tmpName fs.ctr, "tmp"] (dt ++ ["__init__.py"]))
    rw [hk, u4 ["__init__.py"]]
    exact ti3
  · intro s hs hsi
    show lookupE E5 ((d0 :: dt) ++ s) = none
    have hk : lookupE E5 ((d0 :: dt) ++ s) = lookupE E4 ((d0 :: dt) ++ s) := by
      rw [hE5]
      exact lookupE_filter_keep (show (([tmpRoot, tmpName fs.ctr] : FPath) ++ ["tmp"]).isPrefixOf
        ((d0 :: dt) ++ s) = false from hpTd [tmpName fs.ctr, "tmp"] (dt ++ s))
    rw [hk, u4 s, u3 s hsi]
    exact hTshape s hs hsi
  · intro p hmk hdstp
    show lookupE E5 p = lookupE fs.entries p
    have htd : (([tmpRoot, tmpName fs.ctr] : FPath) ++ ["tmp"]).isPrefixOf p = false := by
      cases hb : (([tmpRoot, tmpName fs.ctr] : FPath) ++ ["tmp"]).isPrefixOf p with
      | false => rfl
      | true =>
        have h := isPrefixOf_trans (isPrefixOf_append [tmpRoot, tmpName fs.ctr] ["tmp"]) hb
        rw [hmk] at h
        cases h
    have hk : lookupE E5 p = lookupE E4 p := by
      rw [hE5]
      exact lookupE_filter_keep htd
    rw [hk, fr4 p hdstp, fr3 p htd (ne_of_not_isPrefixOf hmk)]
  · intro k hk s
    have hk' : fs.ctr + 1 ≤ k := hk
    show lookupE E5 (tmpRoot :: tmpName k :: s) = none
    cases hb : (([tmpRoot, tmpName fs.ctr] : FPath) ++ ["tmp"]).isPrefixOf (tmpRoot :: tmpName k :: s) with
    | true =>
      rw [hE5]
      exact lookupE_filter_out hb
    | false =>
      have hke : lookupE E5 (tmpRoot :: tmpName k :: s) = lookupE E4 (tmpRoot :: tmpName k :: s) := by
        rw [hE5]
        exact lookupE_filter_keep hb
      rw [hke]
      have q4 := fr4 (tmpRoot :: tmpName k :: s) (hpDt dt (tmpName k :: s))
      rw [q4]
      have hnemk : (tmpRoot :: tmpName k :: s : FPath) ≠ [tmpRoot, tmpName fs.ctr] := by
        intro hh
        have h2 := List.cons.inj hh
        have h3 := List.cons.inj h2.2
        have hkk : k = fs.ctr := by
          have h4 := congrArg String.length h3.1
          rwa [tmpName_length, tmpName_length] at h4
        omega
      rw [fr3 _ hb hnemk]
      exact htmp k (by omega) s

/-! ### Additional small helpers -/

theorem isPrefixOf_false_of_longer {l m : FPath} (h : m.length < l.length) :
    l.isPrefixOf m = false := by
  cases hb : l.isPrefixOf m with
  | false => rfl
  | true => exact absurd (isPrefixOf_length_le hb) (by omega)

theorem head_append_ne_tmp {od l : FPath} (hod : od ≠ []) (h : od.head? ≠ some tmpRoot) :
    (od ++ l).head? ≠ some tmpRoot := by
  cases od with
  | nil => exact absurd rfl hod
  | cons x xs => exact h

theorem tmp_isPrefixOf_false {nm : String} {p : FPath} (h : p.head? ≠ some tmpRoot) :
    ([tmpRoot, nm] : FPath).isPrefixOf p = false := by
  cases p with
  | nil => rfl
  | cons b bs =>
    refine isPrefixOf_false_of_head _ _ ?_
    intro hh
    exact h (by rw [← hh]; rfl)

theorem isdir_of_lookup {fs : FS} {p : FPath} (h : lookupE fs.entries p = some Entry.dir) :
    os_path_isdir fs p = true := by
  rw [os_path_isdir, h]

theorem isdir_eq_of_lookup_eq {fs1 fs2 : FS} {p : FPath}
    (h : lookupE fs1.entries p = lookupE fs2.entries p) :
    os_path_isdir fs1 p = os_path_isdir fs2 p := by
  rw [os_path_isdir, os_path_isdir, h]

theorem isfile_of_lookup {fs : FS} {p : FPath} {c : String}
    (h : lookupE fs.entries p = some (Entry.file c)) :
    os_path_isfile fs p = true := by
  rw [os_path_isfile, h]

theorem isfile_false_of_lookup_none {fs : FS} {p : FPath} (h : lookupE fs.entries p = none) :
    os_path_isfile fs p = false := by
  rw [os_path_isfile, h]

/-! ### Successful `library_create` -/

/-- Successful run of `library_create`: with a clean temp area, an intact
library template, an existing `out_dir` not under the temp area, the
case-sensitive pre-check passing (no directory named `name` verbatim),
and nothing at all at `out_dir/<lowercased name>`, the call creates the
lowercased library directory with its substituted initializer and
returns that path. -/
theorem library_create_ok {fs : FS} {name : String} {out_dir : FPath} {tL : String}
    (htmp : TmpFree fs)
    (hod : out_dir ≠ []) (hodh : out_dir.head? ≠ some tmpRoot)
    (hdir : os_path_isdir fs out_dir = true)
    (hTdir : lookupE fs.entries templ_library = some Entry.dir)
    (hTinit : lookupE fs.entries (templ_library ++ ["__init__.py"]) = some (Entry.file tL))
    (hTshape : ∀ s : FPath, s ≠ [] → s ≠ ["__init__.py"] → lookupE fs.entries (templ_library ++ s) = none)
    (hchk : os_path_isdir fs (out_dir ++ [name]) = false)
    (hfresh : ∀ s : FPath, lookupE fs.entries ((out_dir ++ [pyLower name]) ++ s) = none) :
    ∃ fs' : FS,
      library_create name out_dir fs = .ok (out_dir ++ [pyLower name]) fs' ∧
      lookupE fs'.entries (out_dir ++ [pyLower name]) = some Entry.dir ∧
      lookupE fs'.entries ((out_dir ++ [pyLower name]) ++ ["__init__.py"]) =
        some (Entry.file (pyReplace tL "LIBRARYNAME" (pyLower name))) ∧
      (∀ s : FPath, s ≠ [] → s ≠ ["__init__.py"] →
        lookupE fs'.entries ((out_dir ++ [pyLower name]) ++ s) = none) ∧
      (∀ p : FPath, [tmpRoot, tmpName fs.ctr].isPrefixOf p = false →
        (out_dir ++ [pyLower name]).isPrefixOf p = false →
        lookupE fs'.entries p = lookupE fs.entries p) ∧
      fs'.ctr = fs.ctr + 1 ∧ TmpFree fs' := by
  have hTne : templ_library ≠ [] := by decide
  have hTh : templ_library.head? ≠ some tmpRoot := by decide
  have hDne : out_dir ++ [pyLower name] ≠ [] := by simp
  have hDh : (out_dir ++ [pyLower name]).head? ≠ some tmpRoot := head_append_ne_tmp hod hodh
  obtain ⟨fs', hrun, h1, h2, h3, h4, h5, h6⟩ :=
    scaffold_copy_spec htmp hTne hTh hTdir hTinit hTshape hDne hDh hfresh
  refine ⟨fs', ?_, h1, h2, h3, h4, h5, h6⟩
  have hex : library_exists name out_dir fs = .ok false fs := by
    simp [library_exists, hdir, hchk]
  simp only [library_create, hex, hdir]
  simp only [Bool.false_eq_true, if_false, if_true, reduceIte]
  exact hrun

/-! ### Successful `operation_create` with implicit library creation -/

/-- Successful run of `operation_create` when the library does not yet
exist: the library is created first (by the inner `library_create` call,
which only behaves as intended for a lowercase library name), then the
operation; afterwards both exist and the operation path is returned.
The separation hypotheses keep the destination outside the temp area and
outside/not above the operation template. -/
theorem operation_create_ok {fs : FS} {od : FPath} {lib op : String} {tL tO : String}
    (htmp : TmpFree fs)
    (hod : od ≠ []) (hodh : od.head? ≠ some tmpRoot)
    (hdir : os_path_isdir fs od = true)
    (hlow : pyLower lib = lib)
    (hTLdir : lookupE fs.entries templ_library = some Entry.dir)
    (hTLinit : lookupE fs.entries (templ_library ++ ["__init__.py"]) = some (Entry.file tL))
    (hTLshape : ∀ s : FPath, s ≠ [] → s ≠ ["__init__.py"] → lookupE fs.entries (templ_library ++ s) = none)
    (hTOdir : lookupE fs.entries templ_operation = some Entry.dir)
    (hTOinit : lookupE fs.entries (templ_operation ++ ["__init__.py"]) = some (Entry.file tO))
    (hTOshape : ∀ s : FPath, s ≠ [] → s ≠ ["__init__.py"] → lookupE fs.entries (templ_operation ++ s) = none)
    (hchk : os_path_isdir fs (od ++ [lib]) = false)
    (hfresh : ∀ s : FPath, lookupE fs.entries ((od ++ [lib]) ++ s) = none)
    (hop : op ≠ "__init__.py")
    (hsep1 : (od ++ [lib]).isPrefixOf templ_operation = false)
    (hsep2 : templ_operation.isPrefixOf (od ++ [lib]) = false) :
    ∃ fs1 fs2 : FS,
      library_create lib od fs = .ok (od ++ [lib]) fs1 ∧
      operation_create od lib op fs = .ok (od ++ [lib, op]) fs2 ∧
      library_exists lib od fs2 = .ok true fs2 ∧
      operation_exists od lib op fs2 = .ok true fs2 ∧
      lookupE fs2.entries (od ++ [lib, op]) = some Entry.dir ∧
      lookupE fs2.entries (od ++ [lib, op, "__init__.py"]) =
        some (Entry.file (pyReplace tO "NEWOPERATION" (to_camel_case op))) := by
  have hfresh' : ∀ s : FPath, lookupE fs.entries ((od ++ [pyLower lib]) ++ s) = none := by
    rw [hlow]
    exact hfresh
  obtain ⟨fs1, hrun1, l1dir, l1init, l1sub, l1fr, l1ctr, l1tmp⟩ :=
    library_create_ok htmp hod hodh hdir hTLdir hTLinit hTLshape hchk hfresh'
  rw [hlow] at hrun1 l1dir l1init l1sub l1fr
  have hodfr : lookupE fs1.entries od = lookupE fs.entries od := by
    refine l1fr od (tmp_isPrefixOf_false hodh) ?_
    apply isPrefixOf_false_of_longer
    simp only [List.length_append, List.length_cons, List.length_nil]
    omega
  have hdir1 : os_path_isdir fs1 od = true := by
    rw [isdir_eq_of_lookup_eq hodfr]
    exact hdir
  have hlibdir1 : os_path_isdir fs1 (od ++ [lib]) = true := isdir_of_lookup l1dir
  have hle1 : library_exists lib od fs1 = .ok true fs1 := by
    simp [library_exists, hdir1, hlibdir1]
  have hof : lookupE fs1.entries (od ++ [lib, op, "__init__.py"]) = none := by
    have heq : (od ++ [lib, op, "__init__.py"] : FPath) = (od ++ [lib]) ++ [op, "__init__.py"] := by
      simp
    rw [heq]
    refine l1sub [op, "__init__.py"] (by simp) ?_
    intro hh
    simp at hh
  have hopex1 : operation_exists od lib op fs1 = .ok false fs1 := by
    simp [operation_exists, hdir1, hle1, isfile_false_of_lookup_none hof]
  have hTne2 : templ_operation ≠ [] := by decide
  have hTh2 : templ_operation.head? ≠ some tmpRoot := by decide
  have hmkTO : ∀ s : FPath, ([tmpRoot, tmpName fs.ctr] : FPath).isPrefixOf (templ_operation ++ s) = false := by
    intro s
    exact tmp_isPrefixOf_false (head_append_ne_tmp (by decide) (by decide))
  have hsepS : ∀ s : FPath, (od ++ [lib]).isPrefixOf (templ_operation ++ s) = false := by
    intro s
    cases hb : (od ++ [lib]).isPrefixOf (templ_operation ++ s) with
    | false => rfl
    | true =>
      rcases prefixes_comparable hb (isPrefixOf_append templ_operation s) with h | h
      · have hc := hsep1
        rw [h] at hc
        cases hc
      · have hc := hsep2
        rw [h] at hc
        cases hc
  have hTOdir1 : lookupE fs1.entries templ_operation = some Entry.dir := by
    have h0 := hsepS []
    rw [List.append_nil] at h0
    have hm0 := hmkTO []
    rw [List.append_nil] at hm0
    rw [l1fr templ_operation hm0 h0]
    exact hTOdir
  have hTOinit1 : lookupE fs1.entries (templ_operation ++ ["__init__.py"]) = some (Entry.file tO) := by
    rw [l1fr _ (hmkTO ["__init__.py"]) (hsepS ["__init__.py"])]
    exact hTOinit
  have hTOshape1 : ∀ s : FPath, s ≠ [] → s ≠ ["__init__.py"] →
      lookupE fs1.entries (templ_operation ++ s) = none := by
    intro s hs hsi
    rw [l1fr _ (hmkTO s) (hsepS s)]
    exact hTOshape s hs hsi
  have hDne2 : od ++ [lib, op] ≠ [] := by simp
  have hDh2 : (od ++ [lib, op]).head? ≠ some tmpRoot := head_append_ne_tmp hod hodh
  have hDfresh2 : ∀ s : FPath, lookupE fs1.entries ((od ++ [lib, op]) ++ s) = none := by
    intro s
    have heq : ((od ++ [lib, op]) ++ s : FPath) = (od ++ [lib]) ++ (op :: s) := by
      simp
    rw [heq]
    refine l1sub (op :: s) (by simp) ?_
    intro hh
    injection hh with h1 _
    exact hop h1
  obtain ⟨fs2, hrun2, o2dir, o2init, o2sub, o2fr, o2ctr, o2tmp⟩ :=
    @scaffold_copy_spec fs1 templ_operation (od ++ [lib, op]) "NEWOPERATION" (to_camel_case op) tO
      l1tmp hTne2 hTh2 hTOdir1 hTOinit1 hTOshape1 hDne2 hDh2 hDfresh2
  have hex0 : library_exists lib od fs = .ok false fs := by
    simp [library_exists, hdir, hchk]
  have hrunO : operation_create od lib op fs = .ok (od ++ [lib, op]) fs2 := by
    simp [operation_create, hex0, hrun1, hopex1, hrun2]
  have hodfr2 : lookupE fs2.entries od = lookupE fs1.entries od := by
    refine o2fr od (tmp_isPrefixOf_false hodh) ?_
    apply isPrefixOf_false_of_longer
    simp only [List.length_append, List.length_cons, List.length_nil]
    omega
  have hdir2 : os_path_isdir fs2 od = true := by
    rw [isdir_eq_of_lookup_eq hodfr2]
    exact hdir1
  have hlibfr2 : lookupE fs2.entries (od ++ [lib]) = lookupE fs1.entries (od ++ [lib]) := by
    refine o2fr (od ++ [lib]) (tmp_isPrefixOf_false (head_append_ne_tmp hod hodh)) ?_
    apply isPrefixOf_false_of_longer
    simp only [List.length_append, List.length_cons, List.length_nil]
    omega
  have hlibdir2 : os_path_isdir fs2 (od ++ [lib]) = true := by
    rw [isdir_eq_of_lookup_eq hlibfr2]
    exact hlibdir1
  have hle2 : library_exists lib od fs2 = .ok true fs2 := by
    simp [library_exists, hdir2, hlibdir2]
  have hinitfile2 : lookupE fs2.entries (od ++ [lib, op, "__init__.py"]) =
      some (Entry.file (pyReplace tO "NEWOPERATION" (to_camel_case op))) := by
    have heq : (od ++ [lib, op, "__init__.py"] : FPath) = (od ++ [lib, op]) ++ ["__init__.py"] := by
      simp
    rw [heq]
    exact o2init
  have hopex2 : operation_exists od lib op fs2 = .ok true fs2 := by
    simp [operation_exists, hdir2, hle2, isfile_of_lookup hinitfile2]
  exact ⟨fs1, fs2, hrun1, hrunO, hle2, hopex2, o2dir, hinitfile2⟩

/-! ### Facts about `to_camel_case` and `pyTitle` -/

/-- `to_camel_case` written uniformly: title-case every underscore
segment and concatenate (the head/tail split in the source joins the same
list). -/
theorem to_camel_case_eq (s : String) :
    to_camel_case s = joinStrs ((pySplitUnd s.data).map (fun l => String.mk (pyTitle l false))) := by
  rw [to_camel_case]
  cases hs : pySplitUnd s.data with
  | nil => rfl
  | cons c0 rest => rfl

/-- Positional behaviour of `pyTitle`: a letter directly after a letter is
lowercased, a letter directly after a non-letter is uppercased. -/
theorem pyTitle_getD (cs : List Char) (b : Bool) (i : Nat) (h1 : i + 1 < cs.length)
    (h2 : (cs.getD (i + 1) ' ').isAlpha = true) :
    (pyTitle cs b).getD (i + 1) ' ' =
      if (cs.getD i ' ').isAlpha then (cs.getD (i + 1) ' ').toLower
      else (cs.getD (i + 1) ' ').toUpper := by
  induction cs generalizing b i with
  | nil => simp at h1
  | cons c cs ih =>
    cases i with
    | zero =>
      cases cs with
      | nil => simp at h1
      | cons d ds =>
        simp only [List.getD_cons_succ, List.getD_cons_zero] at h2 ⊢
        cases hc : c.isAlpha with
        | true => simp [pyTitle, hc, h2]
        | false => simp [pyTitle, hc, h2]
    | succ j =>
      have h1' : j + 1 < cs.length := by
        simp only [List.length_cons] at h1
        omega
      simp only [List.getD_cons_succ] at h2 ⊢
      cases hc : c.isAlpha with
      | true =>
        have hu : pyTitle (c :: cs) b = (if b then c.toLower else c.toUpper) :: pyTitle cs true := by
          simp [pyTitle, hc]
        rw [hu, List.getD_cons_succ]
        exact ih true j h1' h2
      | false =>
        have hu : pyTitle (c :: cs) b = c :: pyTitle cs false := by
          simp [pyTitle, hc]
        rw [hu, List.getD_cons_succ]
        exact ih false j h1' h2

/-- Loop invariant of the substitution pass in
`replace_placeholders_in_file`: folding the placeholders over the state
applies the corresponding fold of `pyReplace` to the file's contents. -/
theorem lookupE_replace_foldl (fp : FPath) :
    ∀ (phs : List (String × String)) (fs : FS) (text : String),
      lookupE fs.entries fp = some (Entry.file text) →
      lookupE (phs.foldl (fun fsa kv =>
        match lookupE fsa.entries fp with
        | some (Entry.file t) =>
          { fsa with entries := (fp, Entry.file (pyReplace t kv.1 kv.2)) :: fsa.entries }
        | _ => fsa) fs).entries fp =
      some (Entry.file (phs.foldl (fun acc kv => pyReplace acc kv.1 kv.2) text)) := by
  intro phs
  induction phs with
  | nil =>
    intro fs text h
    exact h
  | cons kv rest ih =>
    intro fs text h
    simp only [List.foldl_cons, h]
    exact ih _ _ lookupE_cons_self

/-! ### Claims -/

/-- C4: when a library of the given name (checked verbatim) already exists
under an existing `out_dir`, `library_create` raises `LibraryException`
(the spec's `LibraryAlreadyExistsError`) and the returned state is exactly
the input state: no filesystem mutation beyond the existence check. -/
theorem claim_C4 (name : String) (out_dir : FPath) (fs : FS)
    (hdir : os_path_isdir fs out_dir = true)
    (hex : os_path_isdir fs (out_dir ++ [name]) = true) :
    library_create name out_dir fs =
      .error (.libraryException ("The library " ++ name ++ " already exists under " ++ joinPath out_dir)) fs := by
  have hexx : library_exists name out_dir fs = .ok true fs := by
    simp [library_exists, hdir, hex]
  simp [library_create, hexx]

theorem claim_C4_witness :
    library_create "x" ["d"] fsC4 =
      .error (.libraryException ("The library " ++ "x" ++ " already exists under " ++ joinPath ["d"])) fsC4 :=
  claim_C4 "x" ["d"] fsC4 (by decide) (by decide)

/-- C7: both existence checks raise `FileNotFoundError` (the spec's
`NotFoundError`) instead of returning false when the root directory does
not exist as a directory. -/
theorem claim_C7 (name : String) (od : FPath) (lib op : String) (fs : FS)
    (h : os_path_isdir fs od = false) :
    library_exists name od fs = .error (.fileNotFound (joinPath od ++ " does not exist.")) fs ∧
    operation_exists od lib op fs = .error (.fileNotFound (joinPath od)) fs := by
  constructor
  · simp [library_exists, h]
  · simp [operation_exists, h]

theorem claim_C7_witness :
    library_exists "x" ["nope"] fs0 = .error (.fileNotFound (joinPath ["nope"] ++ " does not exist.")) fs0 ∧
    operation_exists ["nope"] "l" "o" fs0 = .error (.fileNotFound (joinPath ["nope"])) fs0 :=
  claim_C7 "x" ["nope"] "l" "o" fs0 (by decide)

/-- C8: with an existing `operations_dir`, `operation_exists` raises
`LibraryNotFound` (the spec's `LibraryNotFoundError`) when
`operations_dir/library_name` is not a directory, and otherwise returns
exactly whether `operations_dir/library_name/operation_name/__init__.py`
is a regular file. -/
theorem claim_C8 (od : FPath) (lib op : String) (fs : FS)
    (hdir : os_path_isdir fs od = true) :
    (os_path_isdir fs (od ++ [lib]) = false →
      operation_exists od lib op fs = .error (.libraryNotFound (joinPath (od ++ [lib]))) fs) ∧
    (os_path_isdir fs (od ++ [lib]) = true →
      operation_exists od lib op fs =
        .ok (os_path_isfile fs (od ++ [lib, op, "__init__.py"])) fs) := by
  constructor
  · intro h
    have hl : library_exists lib od fs = .ok false fs := by
      simp [library_exists, hdir, h]
    simp [operation_exists, hdir, hl]
  · intro h
    have hl : library_exists lib od fs = .ok true fs := by
      simp [library_exists, hdir, h]
    simp [operation_exists, hdir, hl]

theorem claim_C8_witness :
    operation_exists ["d"] "nolib" "op" fsC8 =
      .error (.libraryNotFound (joinPath (["d"] ++ ["nolib"]))) fsC8 ∧
    operation_exists ["d"] "l" "op" fsC8 =
      .ok (os_path_isfile fsC8 (["d"] ++ ["l", "op", "__init__.py"])) fsC8 :=
  ⟨(claim_C8 ["d"] "nolib" "op" fsC8 (by decide)).1 (by decide),
   (claim_C8 ["d"] "l" "op" fsC8 (by decide)).2 (by decide)⟩

/-- C9: with an empty placeholder mapping, `replace_placeholders_in_file`
still raises `FileNotFoundError` when the path is not a regular file, and
when it is, performs no write at all: the returned state is exactly the
input state. -/
theorem claim_C9 (fp : FPath) (fs : FS) :
    (os_path_isfile fs fp = false →
      replace_placeholders_in_file fp [] fs =
        .error (.fileNotFound (joinPath fp ++ " does not exist")) fs) ∧
    (os_path_isfile fs fp = true → replace_placeholders_in_file fp [] fs = .ok () fs) := by
  constructor
  · intro h
    simp [replace_placeholders_in_file, h]
  · intro h
    simp [replace_placeholders_in_file, h]

theorem claim_C9_witness :
    replace_placeholders_in_file ["g"] [] fs0 =
      .error (.fileNotFound (joinPath ["g"] ++ " does not exist")) fs0 ∧
    replace_placeholders_in_file ["f"] [] fsHello = .ok () fsHello :=
  ⟨(claim_C9 ["g"] fs0).1 (by decide), (claim_C9 ["f"] fsHello).2 (by decide)⟩

/-- C5: on an existing regular file, `replace_placeholders_in_file`
succeeds and the file's final contents are the left fold, in mapping
order, of whole-contents replacement (`pyReplace`, all occurrences per
pass) — so each later marker is matched against the output of the earlier
substitutions; and concretely, `{"NAME": "Foo"}` on a file containing
`"Hello NAME"` leaves `"Hello Foo"`. -/
theorem claim_C5 (fp : FPath) (phs : List (String × String)) (fs : FS) (text : String)
    (h : lookupE fs.entries fp = some (Entry.file text)) :
    (∃ fs' : FS, replace_placeholders_in_file fp phs fs = .ok () fs' ∧
      lookupE fs'.entries fp =
        some (Entry.file (phs.foldl (fun acc kv => pyReplace acc kv.1 kv.2) text))) ∧
    (∃ fs' : FS, replace_placeholders_in_file ["f"] [("NAME", "Foo")] fsHello = .ok () fs' ∧
      lookupE fs'.entries ["f"] = some (Entry.file "Hello Foo")) := by
  constructor
  · have hfile : os_path_isfile fs fp = true := isfile_of_lookup h
    have hrun : replace_placeholders_in_file fp phs fs =
        .ok () (phs.foldl (fun fsa kv =>
          match lookupE fsa.entries fp with
          | some (Entry.file t) =>
            { fsa with entries := (fp, Entry.file (pyReplace t kv.1 kv.2)) :: fsa.entries }
          | _ => fsa) fs) := by
      simp [replace_placeholders_in_file, hfile]
    exact ⟨_, hrun, lookupE_replace_foldl fp phs fs text h⟩
  · exact ⟨_, rfl, rfl⟩

theorem claim_C5_witness :
    (∃ fs' : FS, replace_placeholders_in_file ["f"] [("NAME", "Foo")] fsHello = .ok () fs' ∧
      lookupE fs'.entries ["f"] =
        some (Entry.file ([("NAME", "Foo")].foldl (fun acc kv => pyReplace acc kv.1 kv.2) "Hello NAME"))) ∧
    (∃ fs' : FS, replace_placeholders_in_file ["f"] [("NAME", "Foo")] fsHello = .ok () fs' ∧
      lookupE fs'.entries ["f"] = some (Entry.file "Hello Foo")) :=
  claim_C5 ["f"] [("NAME", "Foo")] fsHello "Hello NAME" (by decide)

/-- C6: `to_camel_case` is a pure total function, equal on every input to
joining (with no separator) the title-cased underscore-separated segments
of its input — empty segments contribute the empty string and no input is
rejected; the listed examples evaluate as stated. -/
theorem claim_C6 :
    (∀ s : String, to_camel_case s =
      joinStrs ((pySplitUnd s.data).map (fun l => String.mk (pyTitle l false)))) ∧
    to_camel_case "make_http_request" = "MakeHttpRequest" ∧
    to_camel_case "a" = "A" ∧
    to_camel_case "" = "" ∧
    to_camel_case "_x__y_" = "XY" :=
  ⟨to_camel_case_eq, by decide, by decide, by decide, by decide⟩

/-- C10: title-casing normalises case inside segments: in any segment, a
letter directly following a non-letter is uppercased and a letter
directly following a letter is lowercased, so the result can differ from
naive first-letter capitalisation — e.g. `to_camel_case "a2b" = "A2B"`
and `to_camel_case "API_key" = "ApiKey"`. -/
theorem claim_C10 (cs : List Char) (b : Bool) (i : Nat) (h1 : i + 1 < cs.length)
    (h2 : (cs.getD (i + 1) ' ').isAlpha = true) :
    ((pyTitle cs b).getD (i + 1) ' ' =
      if (cs.getD i ' ').isAlpha then (cs.getD (i + 1) ' ').toLower
      else (cs.getD (i + 1) ' ').toUpper) ∧
    to_camel_case "a2b" = "A2B" ∧
    to_camel_case "API_key" = "ApiKey" :=
  ⟨pyTitle_getD cs b i h1 h2, by decide, by decide⟩

theorem claim_C10_witness :
    ((pyTitle ['x', '2', 'b'] false).getD (1 + 1) ' ' =
      if (['x', '2', 'b'].getD 1 ' ').isAlpha then (['x', '2', 'b'].getD (1 + 1) ' ').toLower
      else (['x', '2', 'b'].getD (1 + 1) ' ').toUpper) ∧
    to_camel_case "a2b" = "A2B" ∧
    to_camel_case "API_key" = "ApiKey" :=
  claim_C10 ['x', '2', 'b'] false 1 (by decide) (by decide)

/-- C1 counterexample: at `fs0` the out_dir `d` exists and contains no
library named `A` (verbatim), yet `library_create "A" ["d"]` followed by
`library_exists "A" ["d"]` returns false, not true: the creation installs
the lowercased directory `d/a` while the existence check looks for `d/A`
verbatim. -/
theorem claim_C1_counterexample :
    ∃ fs' : FS, library_create "A" ["d"] fs0 = .ok ["d", "a"] fs' ∧
      library_exists "A" ["d"] fs' = .ok false fs' :=
  ⟨_, rfl, rfl⟩

/-- C1 (amended: the name must equal its own lowercasing, and nothing —
file or directory — may already sit at `out_dir/name`; templates intact,
roots outside the temp area): `library_create` followed by
`library_exists` returns true. -/
theorem claim_C1 (name : String) (out_dir : FPath) (fs : FS) (tL : String)
    (htmp : fs.tmpInv = true)
    (hTdir : lookupE fs.entries templ_library = some Entry.dir)
    (hTinit : lookupE fs.entries (templ_library ++ ["__init__.py"]) = some (Entry.file tL))
    (hTshape : templShape templ_library fs = true)
    (hod : out_dir ≠ []) (hodh : out_dir.head? ≠ some tmpRoot)
    (hdir : os_path_isdir fs out_dir = true)
    (hlow : pyLower name = name)
    (hfresh : noneUnder (out_dir ++ [name]) fs = true) :
    ∃ fs' : FS, library_create name out_dir fs = .ok (out_dir ++ [name]) fs' ∧
      library_exists name out_dir fs' = .ok true fs' := by
  have hfr := noneUnder_spec hfresh
  have hchk : os_path_isdir fs (out_dir ++ [name]) = false := by
    have h0 := hfr []
    rw [List.append_nil] at h0
    rw [os_path_isdir, h0]
  have hfresh' : ∀ s : FPath, lookupE fs.entries ((out_dir ++ [pyLower name]) ++ s) = none := by
    rw [hlow]
    exact hfr
  obtain ⟨fs', hrun, h1, _, _, h4, _, _⟩ :=
    library_create_ok (TmpFree_of_tmpInv htmp) hod hodh hdir hTdir hTinit
      (templShape_spec hTshape) hchk hfresh'
  rw [hlow] at hrun h1 h4
  refine ⟨fs', hrun, ?_⟩
  have hodfr : lookupE fs'.entries out_dir = lookupE fs.entries out_dir := by
    refine h4 out_dir (tmp_isPrefixOf_false hodh) ?_
    apply isPrefixOf_false_of_longer
    simp only [List.length_append, List.length_cons, List.length_nil]
    omega
  have hdir' : os_path_isdir fs' out_dir = true := by
    rw [isdir_eq_of_lookup_eq hodfr]
    exact hdir
  have hlib' : os_path_isdir fs' (out_dir ++ [name]) = true := isdir_of_lookup h1
  simp [library_exists, hdir', hlib']

theorem claim_C1_witness :
    ∃ fs' : FS, library_create "mylib" ["d"] fs0 = .ok (["d"] ++ ["mylib"]) fs' ∧
      library_exists "mylib" ["d"] fs' = .ok true fs' :=
  claim_C1 "mylib" ["d"] fs0 "import LIBRARYNAME" (by decide) (by decide) (by decide)
    (by decide) (by decide) (by decide) (by decide) (by decide) (by decide)

/-- C2 counterexample: at `fs0` the operations_dir `d` exists and library
`L` does not, yet `operation_create ["d"] "L" "op"` raises
`LibraryNotFound` instead of returning the operation path: the inner
`library_create` installs the lowercased `d/l`, after which
`operation_exists` still cannot find `d/L` verbatim. -/
theorem claim_C2_counterexample :
    ∃ fs' : FS, operation_create ["d"] "L" "op" fs0 =
      .error (.libraryNotFound "d/L") fs' :=
  ⟨_, rfl⟩

/-- C2 (amended: the library name must equal its own lowercasing, nothing
may already sit at or under `operations_dir/library_name`, the operation
name must not be the initializer filename, and the destination must be
prefix-incomparable with the operation template; templates intact, roots
outside the temp area): `operation_create` on a missing library first
creates the library via `library_create`, then the operation; afterwards
`library_exists` and `operation_exists` both return true and the returned
path is `operations_dir/library_name/operation_name`. -/
theorem claim_C2 (od : FPath) (lib op : String) (fs : FS) (tL tO : String)
    (htmp : fs.tmpInv = true)
    (hod : od ≠ []) (hodh : od.head? ≠ some tmpRoot)
    (hdir : os_path_isdir fs od = true)
    (hlow : pyLower lib = lib)
    (hTLdir : lookupE fs.entries templ_library = some Entry.dir)
    (hTLinit : lookupE fs.entries (templ_library ++ ["__init__.py"]) = some (Entry.file tL))
    (hTLshape : templShape templ_library fs = true)
    (hTOdir : lookupE fs.entries templ_operation = some Entry.dir)
    (hTOinit : lookupE fs.entries (templ_operation ++ ["__init__.py"]) = some (Entry.file tO))
    (hTOshape : templShape templ_operation fs = true)
    (hnotex : os_path_isdir fs (od ++ [lib]) = false)
    (hfresh : noneUnder (od ++ [lib]) fs = true)
    (hop : op ≠ "__init__.py")
    (hsep1 : (od ++ [lib]).isPrefixOf templ_operation = false)
    (hsep2 : templ_operation.isPrefixOf (od ++ [lib]) = false) :
    ∃ fs1 fs2 : FS,
      library_create lib od fs = .ok (od ++ [lib]) fs1 ∧
      operation_create od lib op fs = .ok (od ++ [lib, op]) fs2 ∧
      library_exists lib od fs2 = .ok true fs2 ∧
      operation_exists od lib op fs2 = .ok true fs2 := by
  obtain ⟨fs1, fs2, a1, a2, a3, a4, _, _⟩ :=
    operation_create_ok (TmpFree_of_tmpInv htmp) hod hodh hdir hlow hTLdir hTLinit
      (templShape_spec hTLshape) hTOdir hTOinit (templShape_spec hTOshape) hnotex
      (noneUnder_spec hfresh) hop hsep1 hsep2
  exact ⟨fs1, fs2, a1, a2, a3, a4⟩

theorem claim_C2_witness :
    ∃ fs1 fs2 : FS,
      library_create "mylib" ["d"] fs0 = .ok (["d"] ++ ["mylib"]) fs1 ∧
      operation_create ["d"] "mylib" "do_thing" fs0 = .ok (["d"] ++ ["mylib", "do_thing"]) fs2 ∧
      library_exists "mylib" ["d"] fs2 = .ok true fs2 ∧
      operation_exists ["d"] "mylib" "do_thing" fs2 = .ok true fs2 :=
  claim_C2 ["d"] "mylib" "do_thing" fs0 "import LIBRARYNAME" "class NEWOPERATION"
    (by decide) (by decide) (by decide) (by decide) (by decide) (by decide) (by decide)
    (by decide) (by decide) (by decide) (by decide) (by decide) (by decide) (by decide)
    (by decide) (by decide)

/-- C3 counterexample: at `fsC3` the out_dir `d` exists and no library
named `Foo` (verbatim) exists, yet `library_create "Foo" ["d"]` does not
create and return `d/foo`: the lowercased destination `d/foo` already
exists, so the final `shutil.copytree` raises `FileExistsError`. -/
theorem claim_C3_counterexample :
    ∃ fs' : FS, library_create "Foo" ["d"] fsC3 = .error (.fileExists "d/foo") fs' :=
  ⟨_, rfl⟩

/-- C3 (amended: additionally nothing — file or directory — may already
sit at `out_dir/lowercase(name)`): the pre-creation check uses the name
verbatim (the hypothesis constrains only `out_dir/name`), while the
created and returned path uses the lowercased name. -/
theorem claim_C3 (name : String) (out_dir : FPath) (fs : FS) (tL : String)
    (htmp : fs.tmpInv = true)
    (hTdir : lookupE fs.entries templ_library = some Entry.dir)
    (hTinit : lookupE fs.entries (templ_library ++ ["__init__.py"]) = some (Entry.file tL))
    (hTshape : templShape templ_library fs = true)
    (hod : out_dir ≠ []) (hodh : out_dir.head? ≠ some tmpRoot)
    (hdir : os_path_isdir fs out_dir = true)
    (hchk : os_path_isdir fs (out_dir ++ [name]) = false)
    (hfresh : noneUnder (out_dir ++ [pyLower name]) fs = true) :
    ∃ fs' : FS, library_create name out_dir fs = .ok (out_dir ++ [pyLower name]) fs' ∧
      lookupE fs'.entries (out_dir ++ [pyLower name]) = some Entry.dir := by
  obtain ⟨fs', hrun, h1, _, _, _, _, _⟩ :=
    library_create_ok (TmpFree_of_tmpInv htmp) hod hodh hdir hTdir hTinit
      (templShape_spec hTshape) hchk (noneUnder_spec hfresh)
  exact ⟨fs', hrun, h1⟩

theorem claim_C3_witness :
    ∃ fs' : FS, library_create "Foo" ["d"] fs0 = .ok (["d"] ++ [pyLower "Foo"]) fs' ∧
      lookupE fs'.entries (["d"] ++ [pyLower "Foo"]) = some Entry.dir :=
  claim_C3 "Foo" ["d"] fs0 "import LIBRARYNAME" (by decide) (by decide) (by decide)
    (by decide) (by decide) (by decide) (by decide) (by decide) (by decide)
